import Mathlib

/- Shallow embedding of the fastmcp-r2r-openapi-integration repository
   (src/server.py and src/pipelines.py), together with theorems settling
   the specification claims about it. -/

namespace R2R

/-- MCP component kinds used by the route maps (the `MCPType` values that
`server.py` uses: `RESOURCE_TEMPLATE`, `RESOURCE`, `TOOL`). -/
inductive MCPType where
  | RESOURCE_TEMPLATE
  | RESOURCE
  | TOOL
deriving DecidableEq, Repr

/-- A fragment of the restricted regular expressions appearing in
`_route_maps` in `server.py`: a literal character or the `.*` wildcard.
The three patterns there (`^/v3/.*\{.*\}.*$`, `^/v3/.*$`, `.*`) are built
from exactly these constructs; with the explicit `^`/`$` anchors (resp.
the totality of `.*`) Python's regex semantics on them is the anchored
full-string match implemented by `tmatch` below. -/
inductive Tok where
  | lit (c : Char)
  | dotStar
deriving DecidableEq, Repr

/-- Anchored matching of a token pattern against the characters of a path.
A `.*` consumes an arbitrary portion of the remaining path, i.e. the rest
of the pattern may match any suffix of the remaining characters. -/
def tmatch : List Tok → List Char → Bool
  | [], s => s.isEmpty
  | Tok.lit c :: ts, s =>
      match s with
      | [] => false
      | x :: xs => c == x && tmatch ts xs
  | Tok.dotStar :: ts, s => s.tails.any fun suf => tmatch ts suf

/-- Literal tokens for every character of a string. -/
def lits (s : String) : List Tok := s.toList.map Tok.lit

/-- One entry of `_route_maps`: HTTP method list, path pattern, target
MCP component kind (mirrors the fields of `fastmcp`'s `RouteMap` that
`server.py` sets). -/
structure RouteMap where
  methods : List String
  pattern : List Tok
  mcp_type : MCPType
deriving Repr

/-- The bundled default rule set `_route_maps` from `server.py`
(lines 121-145), in declared order. -/
def route_maps : List RouteMap :=
  [ { methods := ["GET"]
    , pattern := lits "/v3/" ++
        [Tok.dotStar, Tok.lit '\x7b', Tok.dotStar, Tok.lit '\x7d', Tok.dotStar]
    , mcp_type := MCPType.RESOURCE_TEMPLATE }
  , { methods := ["GET"]
    , pattern := lits "/v3/" ++ [Tok.dotStar]
    , mcp_type := MCPType.RESOURCE }
  , { methods := ["POST", "PUT", "PATCH", "DELETE"]
    , pattern := [Tok.dotStar]
    , mcp_type := MCPType.TOOL } ]

/-- A rule matches an endpoint when the endpoint's method is in the rule's
method list and the rule's pattern matches the endpoint's full path. -/
def ruleMatches (r : RouteMap) (method : String) (path : List Char) : Bool :=
  r.methods.contains method && tmatch r.pattern path

/-- Modelled from the spec: the route classifier of the external
OpenAPI-to-MCP generator that consumes `_route_maps` (the generator itself
is a third-party collaborator, not in this repository).  Spec section 4.2:
"iterate the rule list in declared order; for each rule, test whether the
endpoint's method is in the rule's method set AND the endpoint's path
matches the rule's pattern (full-string regex match); return the role of
the first matching rule; if no rule matches, the endpoint is omitted". -/
def classify (rules : List RouteMap) (method : String) (path : List Char) :
    Option MCPType :=
  match rules with
  | [] => none
  | r :: rs =>
      if ruleMatches r method path then some r.mcp_type
      else classify rs method path

/-! ### DynamicBearerAuth (`src/server.py` lines 75-109) -/

/-- Level of an emitted log record. -/
inductive LogLevel where
  | debug
  | info
  | warning
  | error
deriving DecidableEq, Repr

/-- One record emitted via the logging collaborator (`logger.…`). -/
structure LogEvent where
  level : LogLevel
  msg : String
deriving DecidableEq, Repr

/-- Process-wide environment state (`os.environ`), as a name/value map. -/
abbrev Env := List (String × String)

/-- `os.getenv(name, dflt)`. -/
def getenv (env : Env) (name dflt : String) : String :=
  (env.lookup name).getD dflt

/-- Dict-style update, as performed by `request.headers[name] = value` and
by `self.results[name] = result`: replace the value of an existing key in
place, otherwise append the new entry at the end. -/
def setEntry {α : Type} : List (String × α) → String → α → List (String × α)
  | [], k, v => [(k, v)]
  | p :: rest, k, v =>
      if p.1 == k then (k, v) :: rest else p :: setEntry rest k v

/-- An outbound HTTP request: the parts of `httpx.Request` that
`auth_flow` reads or writes (`request.method`, `request.url.path`,
`request.headers`) plus the body, which it never touches. -/
structure Request where
  method : String
  urlPath : String
  headers : List (String × String)
  body : String
deriving DecidableEq, Repr

/-- Read a header (`request.headers.get(name)`). -/
def getHeader (r : Request) (name : String) : Option String :=
  r.headers.lookup name

/-- The masked key computed in `auth_flow`'s debug branch: the first 8
characters, then the three-dot ellipsis, then the last 4 characters, when
the key is longer than 12 characters; otherwise the three-star mask. -/
def maskedKey (apiKey : String) : String :=
  if apiKey.length > 12 then
    (apiKey.toList.take 8).asString ++ "..." ++
      (apiKey.toList.drop (apiKey.length - 4)).asString
  else "***"

/-- The debug message of `auth_flow` (lines 100-103). -/
def authDebugMsg (method urlPath apiKey : String) : String :=
  "✓ Injected Bearer auth for " ++ method ++ " " ++ urlPath ++
    " (key: " ++ maskedKey apiKey ++ ")"

/-- The warning message of `auth_flow` (lines 105-108). -/
def authWarnMsg : String :=
  "⚠️  R2R_API_KEY not set - API requests will likely fail with 401. " ++
    "Set R2R_API_KEY environment variable."

/-- `DynamicBearerAuth.auth_flow` (lines 84-109).  The class has no
instance state; the API key is read from the process environment inside
each call.  Returns the (possibly header-mutated) request that the
generator yields, together with the log records emitted during the call. -/
def auth_flow (env : Env) (debugLogging : Bool) (request : Request) :
    Request × List LogEvent :=
  let apiKey := getenv env "R2R_API_KEY" ""
  if apiKey ≠ "" then
    let request' := { request with
      headers := setEntry request.headers "Authorization" ("Bearer " ++ apiKey) }
    let logs :=
      if debugLogging then
        [⟨LogLevel.debug, authDebugMsg request.method request.urlPath apiKey⟩]
      else []
    (request', logs)
  else
    (request, [⟨LogLevel.warning, authWarnMsg⟩])

/-! ### Startup spec loading (`src/server.py` lines 162-211) -/

/-- A JSON value, as produced by `response.json()`. -/
inductive Json where
  | obj (fields : List (String × Json))
  | arr (elems : List Json)
  | str (s : String)
  | num (n : Int)
  | bool (b : Bool)
  | null
deriving Repr

/-- Outcome of `httpx.get(_r2r_openapi_url)` followed by
`raise_for_status()` and `.json()`: either a transport-level failure
(`httpx.HTTPError`) carrying its message, or the decoded JSON body. -/
inductive FetchResult where
  | failure (errMsg : String)
  | success (body : Json)

/-- `isinstance(spec, dict)`. -/
def isDict (j : Json) : Bool :=
  match j with
  | Json.obj _ => true
  | _ => false

/-- `key in spec` for a JSON object (non-objects have no keys). -/
def hasKey (j : Json) (k : String) : Bool :=
  match j with
  | Json.obj fields => fields.any fun p => p.1 == k
  | _ => false

/-- `spec.get(k)` on a JSON object. -/
def jsonGet (j : Json) (k : String) : Option Json :=
  match j with
  | Json.obj fields => fields.lookup k
  | _ => none

/-- The title/version lookup interpolated into the success log line:
the `info` sub-object's field `k`, with default the string Unknown at
either level.  (Rendering of a non-string JSON value by Python's `str()`
is not modelled; no claim depends on it.) -/
def specInfoField (spec : Json) (k : String) : String :=
  match jsonGet spec "info" with
  | some info =>
      match jsonGet info k with
      | some (Json.str s) => s
      | _ => "Unknown"
  | none => "Unknown"

/-- The module-level spec-loading block of `server.py` (lines 162-187):
fetch, `raise_for_status`, decode, then validate that the document is a
dict containing the key `"openapi"`.  An `Except.error` is the message of
the `RuntimeError` raised there — an uncaught exception at import time,
which terminates the Python process with a non-zero status.  The emitted
log records are returned alongside. -/
def loadOpenapiSpec (openapiUrl baseUrl : String) (fetch : FetchResult) :
    Except String Json × List LogEvent :=
  let fetchingLog : LogEvent :=
    ⟨LogLevel.info, "Fetching OpenAPI specification from " ++ openapiUrl⟩
  match fetch with
  | FetchResult.failure e =>
      (Except.error
        ("Could not connect to R2R API. Please verify R2R_BASE_URL=" ++
          baseUrl ++ " is correct and the server is running."),
       [fetchingLog,
        ⟨LogLevel.error,
          "Failed to fetch OpenAPI spec from " ++ openapiUrl ++ ": " ++ e⟩])
  | FetchResult.success spec =>
      if !isDict spec || !hasKey spec "openapi" then
        (Except.error
          ("Received invalid OpenAPI specification from " ++ openapiUrl ++
            ". Please verify the API is returning a valid OpenAPI 3.0/3.1 spec."),
         [fetchingLog,
          ⟨LogLevel.error,
            "Invalid OpenAPI specification format: " ++
              "Invalid OpenAPI specification format"⟩])
      else
        (Except.ok spec,
         [fetchingLog,
          ⟨LogLevel.info,
            "✓ Loaded OpenAPI spec: " ++ specInfoField spec "title" ++ " v" ++
              specInfoField spec "version"⟩])

/-- The callable surface produced by `FastMCP.from_openapi` (an external
generator): the model records exactly the inputs `server.py` hands to it
(lines 192-196).  Generator-internal failures, which the second
`try/except` wraps into a `RuntimeError`, belong to the external
collaborator and are not modelled. -/
structure MCPServer where
  openapi_spec : Json
  routeMaps : List RouteMap

/-- The module-level startup sequence of `server.py` (lines 162-211):
load and validate the OpenAPI document, then generate the callable
surface.  A fatal error in the first stage means the generator is never
reached and the process does not start. -/
def startupServer (openapiUrl baseUrl : String) (fetch : FetchResult) :
    Except String MCPServer × List LogEvent :=
  match loadOpenapiSpec openapiUrl baseUrl fetch with
  | (Except.error e, logs) => (Except.error e, logs)
  | (Except.ok spec, logs) =>
      (Except.ok { openapi_spec := spec, routeMaps := route_maps }, logs)

/-- Modelled from the spec: the startup fetch contract of spec section 6,
"fetch OpenAPI document from spec URL → on transport failure, fall back to
a local cached copy if present, else abort with a fatal, descriptive
error".  No such local-cache fallback exists anywhere in this repository's
code; this definition follows the spec's words only, to be compared with
`loadOpenapiSpec` (the embedding of the actual code). -/
def specLoadOpenapiSpec (openapiUrl : String) (fetch : FetchResult)
    (localCache : Option Json) : Except String Json :=
  match fetch with
  | FetchResult.failure e =>
      match localCache with
      | some cached => Except.ok cached
      | none =>
          Except.error
            ("Could not fetch OpenAPI spec from " ++ openapiUrl ++ ": " ++ e)
  | FetchResult.success spec => Except.ok spec

/-! ### Pipeline (`src/pipelines.py` lines 168-249) -/

/-- One pipeline step, as stored by `Pipeline.add_step`: a name plus the
function to run.  In the Python code the function receives its fixed
`kwargs`, optionally the context, and `previous_results`; the fixed
arguments are folded into the function here, which therefore maps the
accumulated results dict to either a returned value or a raised
exception. -/
structure Step (α ε : Type) where
  name : String
  func : List (String × α) → Except ε α

/-- `Pipeline.add_step` (lines 187-205): append a step to `self.steps`
and return the pipeline itself. -/
def add_step {α ε : Type} (steps : List (Step α ε)) (name : String)
    (func : List (String × α) → Except ε α) : List (Step α ε) :=
  steps ++ [{ name := name, func := func }]

/-- `Pipeline.execute` (lines 207-249): run the recorded steps in order,
passing the accumulated `self.results` to each and storing each returned
value in `self.results` under the step's name; a raised exception
propagates immediately, leaving `self.results` holding exactly the
already-completed steps.  Returns the final `self.results` together with
the propagated exception, if any. -/
def execute {α ε : Type} :
    List (Step α ε) → List (String × α) → List (String × α) × Option ε
  | [], results => (results, none)
  | step :: rest, results =>
      match step.func results with
      | Except.ok v => execute rest (setEntry results step.name v)
      | Except.error e => (results, some e)

/-- The state of `self.results` after a given list of (name, value)
updates, each applied dict-style. -/
def applyEntries {α : Type} (m : List (String × α)) (es : List (String × α)) :
    List (String × α) :=
  es.foldl (fun m p => setEntry m p.1 p.2) m

/-! ### Helper lemmas about dict-style updates -/

theorem lookup_setEntry_self {α : Type} (hs : List (String × α)) (k : String)
    (v : α) : (setEntry hs k v).lookup k = some v := by
  induction hs with
  | nil => simp [setEntry, List.lookup]
  | cons p rest ih =>
      by_cases h : p.1 = k
      · simp [setEntry, h, List.lookup]
      · simp only [setEntry, beq_iff_eq, h, if_false, List.lookup]
        have : (k == p.1) = false := by
          simp [beq_eq_false_iff_ne]
          exact fun hk => h hk.symm
        simp [this, ih]

theorem lookup_setEntry_ne {α : Type} (hs : List (String × α)) (k k' : String)
    (v : α) (h : k' ≠ k) : (setEntry hs k v).lookup k' = hs.lookup k' := by
  induction hs with
  | nil =>
      simp only [setEntry, List.lookup]
      have : (k' == k) = false := by simp [beq_eq_false_iff_ne, h]
      simp [this]
  | cons p rest ih =>
      by_cases hp : p.1 = k
      · have : (k' == p.1) = false := by
          simp [beq_eq_false_iff_ne]
          exact fun hk => h (hk.trans hp)
        have hk : (k' == k) = false := by simp [beq_eq_false_iff_ne, h]
        simp [setEntry, hp, List.lookup, this, hk]
      · simp only [setEntry, beq_iff_eq, hp, if_false, List.lookup]
        by_cases hk' : k' = p.1
        · simp [hk']
        · have : (k' == p.1) = false := by simp [beq_eq_false_iff_ne, hk']
          simp [this, ih]

/-! ### Claims C1, C5, C9: DynamicBearerAuth behaviour -/

/-- C1: credential resolution happens at request time, not construction
time.  `DynamicBearerAuth` holds no instance state, so two successive
`auth_flow` calls on the same provider differ only in the environment they
read; if the environment token changed between the calls, the
Authorization header produced by the second call carries the new token. -/
theorem auth_requestTime_credentials
    (env1 env2 : Env) (d1 d2 : Bool) (r : Request) (k1 k2 : String)
    (h1 : getenv env1 "R2R_API_KEY" "" = k1)
    (h2 : getenv env2 "R2R_API_KEY" "" = k2)
    (hchange : k1 ≠ k2) (hne : k2 ≠ "") :
    getHeader (auth_flow env2 d2 (auth_flow env1 d1 r).1).1 "Authorization" =
      some ("Bearer " ++ k2) := by
  simp only [auth_flow, h2, hne, if_true, getHeader]
  split
  · exact lookup_setEntry_self _ _ _
  · exact lookup_setEntry_self _ _ _

/-- Witness for C1 at concrete environments and a concrete request. -/
theorem auth_requestTime_credentials_witness :
    getenv [("R2R_API_KEY", "oldtoken")] "R2R_API_KEY" "" = "oldtoken" ∧
    getenv [("R2R_API_KEY", "newtoken")] "R2R_API_KEY" "" = "newtoken" ∧
    "oldtoken" ≠ "newtoken" ∧ ("newtoken" : String) ≠ "" ∧
    getHeader (auth_flow [("R2R_API_KEY", "newtoken")] false
        (auth_flow [("R2R_API_KEY", "oldtoken")] false
          ⟨"GET", "/v3/documents", [], ""⟩).1).1 "Authorization" =
      some ("Bearer " ++ "newtoken") :=
  ⟨rfl, rfl, by decide, by decide,
    auth_requestTime_credentials _ _ false false _ _ _ rfl rfl
      (by decide) (by decide)⟩

/-- C5: with the environment token empty or absent, `auth_flow` leaves the
request unchanged (in particular no Authorization header is added) and
emits exactly one log record, a warning. -/
theorem auth_missing_token_no_header
    (env : Env) (d : Bool) (r : Request)
    (h : getenv env "R2R_API_KEY" "" = "") :
    auth_flow env d r = (r, [⟨LogLevel.warning, authWarnMsg⟩]) ∧
      ((auth_flow env d r).2.filter
        (fun ev => ev.level == LogLevel.warning)).length = 1 := by
  constructor
  · simp [auth_flow, h]
  · simp [auth_flow, h, List.filter]

/-- Witness for C5: a concrete environment with the token absent and one
with it empty, on a concrete request carrying a prior header. -/
theorem auth_missing_token_no_header_witness :
    getenv [] "R2R_API_KEY" "" = "" ∧
    getenv [("R2R_API_KEY", "")] "R2R_API_KEY" "" = "" ∧
    auth_flow [] true ⟨"GET", "/v3/documents", [("Accept", "json")], ""⟩ =
      (⟨"GET", "/v3/documents", [("Accept", "json")], ""⟩,
        [⟨LogLevel.warning, authWarnMsg⟩]) ∧
    auth_flow [("R2R_API_KEY", "")] false ⟨"POST", "/v3/chunks", [], "b"⟩ =
      (⟨"POST", "/v3/chunks", [], "b"⟩, [⟨LogLevel.warning, authWarnMsg⟩]) :=
  ⟨rfl, rfl,
    (auth_missing_token_no_header [] true _ rfl).1,
    (auth_missing_token_no_header [("R2R_API_KEY", "")] false _ rfl).1⟩

/-- C9: `auth_flow` has no effect on the request beyond the Authorization
header: method, URL path, body, and every header other than
`Authorization` are unchanged by the call, in every environment. -/
theorem auth_frame
    (env : Env) (d : Bool) (r : Request) (name : String)
    (hname : name ≠ "Authorization") :
    (auth_flow env d r).1.method = r.method ∧
    (auth_flow env d r).1.urlPath = r.urlPath ∧
    (auth_flow env d r).1.body = r.body ∧
    getHeader (auth_flow env d r).1 name = getHeader r name := by
  by_cases h : getenv env "R2R_API_KEY" "" = ""
  · simp [auth_flow, h, getHeader]
  · simp only [auth_flow, getHeader]
    rw [if_pos h]
    exact ⟨rfl, rfl, rfl, lookup_setEntry_ne _ _ _ _ hname⟩

/-- Witness for C9 at a concrete environment, request and header name. -/
theorem auth_frame_witness :
    ("Accept" : String) ≠ "Authorization" ∧
    ((auth_flow [("R2R_API_KEY", "tok")] true
        ⟨"GET", "/v3/graphs", [("Accept", "json")], "payload"⟩).1.method = "GET" ∧
      (auth_flow [("R2R_API_KEY", "tok")] true
        ⟨"GET", "/v3/graphs", [("Accept", "json")], "payload"⟩).1.urlPath =
          "/v3/graphs" ∧
      (auth_flow [("R2R_API_KEY", "tok")] true
        ⟨"GET", "/v3/graphs", [("Accept", "json")], "payload"⟩).1.body =
          "payload" ∧
      getHeader (auth_flow [("R2R_API_KEY", "tok")] true
        ⟨"GET", "/v3/graphs", [("Accept", "json")], "payload"⟩).1 "Accept" =
        getHeader ⟨"GET", "/v3/graphs", [("Accept", "json")], "payload"⟩
          "Accept") :=
  ⟨by decide, auth_frame _ true _ "Accept" (by decide)⟩

/-! ### Helper lemmas about pattern matching -/

theorem tmatch_dotStar_iff (ts : List Tok) (l : List Char) :
    tmatch (Tok.dotStar :: ts) l = true ↔
      ∃ s, s <:+ l ∧ tmatch ts s = true := by
  simp only [tmatch, List.any_eq_true, List.mem_tails]

theorem tmatch_dotStar_of_suffix (ts : List Tok) (pre s : List Char)
    (h : tmatch ts s = true) :
    tmatch (Tok.dotStar :: ts) (pre ++ s) = true :=
  (tmatch_dotStar_iff ts (pre ++ s)).2 ⟨s, ⟨pre, rfl⟩, h⟩

theorem tmatch_dotStar_total (l : List Char) :
    tmatch [Tok.dotStar] l = true := by
  refine (tmatch_dotStar_iff [] l).2 ⟨[], ⟨l, by simp⟩, ?_⟩
  simp [tmatch]

theorem tmatch_lit_append (l : List Char) (ts : List Tok) (cs : List Char) :
    tmatch (l.map Tok.lit ++ ts) (l ++ cs) = tmatch ts cs := by
  induction l with
  | nil => rfl
  | cons c l ih => simp [tmatch, ih]

theorem tmatch_lit_cons (c x : Char) (ts : List Tok) (xs : List Char) :
    tmatch (Tok.lit c :: ts) (x :: xs) = (c == x && tmatch ts xs) := rfl

/-! ### Claim C2: first match wins -/

/-- C2 (amended): route classification follows first-match-wins over the
declared rule order — if rule `i` matches an endpoint and no earlier rule
does, the endpoint's role is rule `i`'s role, later rules notwithstanding;
consequently, for two rules with overlapping patterns and distinct target
roles, swapping their order changes the classification of every endpoint
matching both. -/
theorem classify_first_match_wins :
    (∀ (rules : List RouteMap) (method : String) (path : List Char)
        (i : Nat) (hi : i < rules.length),
      ruleMatches (rules.get ⟨i, hi⟩) method path = true →
      (∀ j (hj : j < i),
        ruleMatches (rules.get ⟨j, Nat.lt_trans hj hi⟩) method path = false) →
      classify rules method path = some (rules.get ⟨i, hi⟩).mcp_type) ∧
    (∀ (r1 r2 : RouteMap) (method : String) (path : List Char),
      ruleMatches r1 method path = true → ruleMatches r2 method path = true →
      r1.mcp_type ≠ r2.mcp_type →
      classify [r1, r2] method path ≠ classify [r2, r1] method path) := by
  constructor
  · intro rules method path
    induction rules with
    | nil => intro i hi; exact absurd hi (Nat.not_lt_zero i)
    | cons r rs ih =>
        intro i hi hmatch hearlier
        cases i with
        | zero => simp_all [classify]
        | succ n =>
            have h0 : ruleMatches r method path = false :=
              hearlier 0 (Nat.succ_pos n)
            simp only [classify, h0, Bool.false_eq_true, if_false]
            exact ih n (Nat.lt_of_succ_lt_succ hi) hmatch
              fun j hj => hearlier (j + 1) (Nat.succ_lt_succ hj)
  · intro r1 r2 method path h1 h2 hne
    simp [classify, h1, h2, hne]

/-- Witness for C2: under the bundled rules, GET /v3/documents matches
rule 1 while rule 0 fails, so the classification is rule 1's role; and a
concrete overlapping rule pair with distinct roles classifies a shared
endpoint differently once swapped. -/
theorem classify_first_match_wins_witness :
    classify route_maps "GET" "/v3/documents".toList =
        some ((route_maps.get ⟨1, by decide⟩).mcp_type) ∧
      classify [⟨["GET"], [Tok.dotStar], MCPType.RESOURCE⟩,
          ⟨["GET"], [Tok.dotStar], MCPType.TOOL⟩] "GET" "/v3/x".toList ≠
        classify [⟨["GET"], [Tok.dotStar], MCPType.TOOL⟩,
          ⟨["GET"], [Tok.dotStar], MCPType.RESOURCE⟩] "GET" "/v3/x".toList :=
  ⟨classify_first_match_wins.1 route_maps "GET" "/v3/documents".toList 1
      (by decide) (by decide)
      (by
        intro j hj
        have hj0 : j = 0 := by omega
        subst hj0
        exact (by decide :
          ruleMatches (route_maps.get ⟨0, by decide⟩) "GET"
            "/v3/documents".toList = false)),
    classify_first_match_wins.2 _ _ "GET" "/v3/x".toList
      (by decide) (by decide) (by decide)⟩

/-- C2 counterexample: the claim's consequence fails as stated — two
distinct rules with overlapping patterns but the same target role: some
endpoint matches both, yet swapping their order changes no endpoint's
classification at all. -/
theorem classify_swap_counterexample :
    (∃ method path,
        ruleMatches ⟨["POST"], [Tok.dotStar], MCPType.TOOL⟩ method path = true ∧
        ruleMatches ⟨["POST", "PUT"], [Tok.dotStar], MCPType.TOOL⟩ method path
          = true) ∧
    ¬ ∃ method path,
        ruleMatches ⟨["POST"], [Tok.dotStar], MCPType.TOOL⟩ method path = true ∧
        ruleMatches ⟨["POST", "PUT"], [Tok.dotStar], MCPType.TOOL⟩ method path
          = true ∧
        classify [⟨["POST"], [Tok.dotStar], MCPType.TOOL⟩,
            ⟨["POST", "PUT"], [Tok.dotStar], MCPType.TOOL⟩] method path ≠
          classify [⟨["POST", "PUT"], [Tok.dotStar], MCPType.TOOL⟩,
            ⟨["POST"], [Tok.dotStar], MCPType.TOOL⟩] method path := by
  constructor
  · exact ⟨"POST", "/v3/documents".toList, by decide, by decide⟩
  · rintro ⟨method, path, h1, h2, hne⟩
    exact hne (by simp [classify, h1, h2])

/-! ### Claim C3: bundled classifications of the documents endpoints -/

/-- C3: under the bundled default rule set, GET /v3/documents/(id) — with
the id segment in braces — classifies as RESOURCE_TEMPLATE,
GET /v3/documents as RESOURCE, and POST /v3/documents as TOOL. -/
theorem default_rules_document_classifications :
    classify route_maps "GET" "/v3/documents/\x7bid\x7d".toList =
        some MCPType.RESOURCE_TEMPLATE ∧
      classify route_maps "GET" "/v3/documents".toList =
        some MCPType.RESOURCE ∧
      classify route_maps "POST" "/v3/documents".toList =
        some MCPType.TOOL :=
  ⟨by decide, by decide, by decide⟩

/-! ### Claim C4: GET endpoints with a bracketed parameter segment -/

/-- C4 (amended): every GET endpoint whose path starts with /v3/ and
contains, anywhere after that prefix — including deep inside the path —
an opening brace later followed by a closing brace, classifies as
RESOURCE_TEMPLATE under the bundled default rule set. -/
theorem get_with_param_is_template (x y z : List Char) :
    classify route_maps "GET"
      ("/v3/".toList ++ (x ++ ('\x7b' :: (y ++ ('\x7d' :: z))))) =
      some MCPType.RESOURCE_TEMPLATE := by
  have hpat : tmatch (lits "/v3/" ++
      [Tok.dotStar, Tok.lit '\x7b', Tok.dotStar, Tok.lit '\x7d', Tok.dotStar])
      ("/v3/".toList ++ (x ++ ('\x7b' :: (y ++ ('\x7d' :: z))))) = true := by
    rw [lits, tmatch_lit_append]
    refine tmatch_dotStar_of_suffix _ x ('\x7b' :: (y ++ ('\x7d' :: z))) ?_
    rw [tmatch_lit_cons]
    simp only [beq_self_eq_true, Bool.true_and]
    refine tmatch_dotStar_of_suffix _ y ('\x7d' :: z) ?_
    rw [tmatch_lit_cons]
    simp only [beq_self_eq_true, Bool.true_and]
    exact tmatch_dotStar_total z
  have hc : (["GET"] : List String).contains "GET" = true := by decide
  simp only [route_maps, classify, ruleMatches, hc, hpat, Bool.and_self,
    if_true]

/-- Witness for C4 at a parameter embedded deep in the path:
GET /v3/collections/(id)/documents — id in braces — is a
RESOURCE_TEMPLATE. -/
theorem get_with_param_is_template_witness :
    classify route_maps "GET"
      ("/v3/".toList ++ ("collections/".toList ++
        ('\x7b' :: ("id".toList ++ ('\x7d' :: "/documents".toList))))) =
      some MCPType.RESOURCE_TEMPLATE :=
  get_with_param_is_template "collections/".toList "id".toList
    "/documents".toList

/-- C4 counterexample: the claim as stated fails for a GET endpoint whose
path holds a bracketed parameter but lies outside /v3/ — the bundled
rules classify GET /v2/items/(id) — id in braces — as nothing at all
(the endpoint is omitted), not as RESOURCE_TEMPLATE. -/
theorem get_with_param_counterexample :
    ("/v2/items/\x7bid\x7d".toList =
        "/v2/items/".toList ++ '\x7b' :: "id".toList ++ '\x7d' :: []) ∧
      classify route_maps "GET" "/v2/items/\x7bid\x7d".toList = none ∧
      classify route_maps "GET" "/v2/items/\x7bid\x7d".toList ≠
        some MCPType.RESOURCE_TEMPLATE :=
  ⟨by decide, by decide, by decide⟩

/-! ### Claim C6: token masking in the debug log -/

theorem maskedKey_toList_of_long (t : String) (h : t.length > 12) :
    (maskedKey t).toList =
      t.toList.take 8 ++ ("...".toList ++ t.toList.drop (t.length - 4)) := by
  simp [maskedKey, h]
  rfl

theorem nonempty_toList (t : String) (h : t ≠ "") : t.toList ≠ [] := by
  intro hd
  exact h (by cases t; simp_all [String.toList])

theorem token_not_in_maskedKey (t : String) (h0 : t ≠ "")
    (hc : ∀ c ∈ t.toList, c ≠ '*' ∧ c ≠ '.') :
    ¬ t.toList <:+: (maskedKey t).toList := by
  intro hinf
  have htl : t.toList.length = t.length := rfl
  by_cases hlen : t.length > 12
  · obtain ⟨s, u, hsu⟩ := hinf
    rw [maskedKey_toList_of_long t hlen, List.append_assoc] at hsu
    have hA : (t.toList.take 8).length = 8 := by
      simp only [List.length_take]
      omega
    have hB : (t.toList.drop (t.length - 4)).length = 4 := by
      simp only [List.length_drop]
      omega
    have hD : ("...".toList).length = 3 := rfl
    have hlens : s.length + (t.toList.length + u.length) = 15 := by
      have hl := congrArg List.length hsu
      simp only [List.length_append, hA, hB, hD] at hl
      omega
    have hs2 : s.length ≤ 2 := by omega
    have hidx : 10 - s.length < t.toList.length := by omega
    have hrhs : (t.toList.take 8 ++
        ("...".toList ++ t.toList.drop (t.length - 4)))[10]? = some '.' := by
      rw [List.getElem?_append, hA]
      norm_num
    have hlhs : (s ++ (t.toList ++ u))[10]? = t.toList[10 - s.length]? := by
      rw [List.getElem?_append]
      rw [if_neg (by omega : ¬ 10 < s.length)]
      rw [List.getElem?_append]
      rw [if_pos hidx]
    have hdot : t.toList[10 - s.length]? = some '.' := by
      rw [← hlhs, hsu]
      exact hrhs
    rw [List.getElem?_eq_getElem hidx] at hdot
    have heq : t.toList.get ⟨10 - s.length, hidx⟩ = '.' := Option.some.inj hdot
    have hmem : '.' ∈ t.toList := by
      rw [← heq]
      exact List.get_mem t.toList _ hidx
    exact (hc '.' hmem).2 rfl
  · have hmask : (maskedKey t).toList = ['*', '*', '*'] := by
      simp [maskedKey, hlen]
    rw [hmask] at hinf
    have hsub := hinf.subset
    cases hcl : t.toList with
    | nil => exact nonempty_toList t h0 hcl
    | cons c rest =>
        have hcmem : c ∈ t.toList := by rw [hcl]; exact List.mem_cons_self c rest
        have : c ∈ ['*', '*', '*'] := hsub (by rw [hcl]; exact List.mem_cons_self c rest)
        have hstar : c = '*' := by simpa using this
        exact (hc c hcmem).1 hstar

/-- C6 (amended): in debug mode `auth_flow` logs the token only through
`maskedKey`, the masked prefix+suffix form; for every nonempty token
containing neither the character '*' nor the character '.', the masked
form never contains the full token literal; in particular the token
"abc123xyz789" is logged as the masked form "***", never the literal
value.  (Without the character restriction the claim fails: see the
counterexample with token "***", whose masked form is the token itself.) -/
theorem masked_token_never_logged :
    (∀ (env : Env) (r : Request) (t : String),
        getenv env "R2R_API_KEY" "" = t → t ≠ "" →
        (auth_flow env true r).2 =
          [⟨LogLevel.debug,
            "✓ Injected Bearer auth for " ++ r.method ++ " " ++ r.urlPath ++
              " (key: " ++ maskedKey t ++ ")"⟩]) ∧
    (∀ t : String, t ≠ "" → (∀ c ∈ t.toList, c ≠ '*' ∧ c ≠ '.') →
        ¬ t.toList <:+: (maskedKey t).toList) ∧
    maskedKey "abc123xyz789" = "***" ∧
    ("abc123xyz789" : String) ≠ "***" := by
  refine ⟨?_, token_not_in_maskedKey, by decide, by decide⟩
  intro env r t ht hne
  subst ht
  simp [auth_flow, hne, authDebugMsg]

/-- Witness for C6 at the token from the spec, "abc123xyz789", in a
concrete environment and request. -/
theorem masked_token_never_logged_witness :
    (auth_flow [("R2R_API_KEY", "abc123xyz789")] true
        ⟨"GET", "/v3/documents", [], ""⟩).2 =
      [⟨LogLevel.debug,
        "✓ Injected Bearer auth for " ++ "GET" ++ " " ++ "/v3/documents" ++
          " (key: " ++ maskedKey "abc123xyz789" ++ ")"⟩] ∧
    ¬ "abc123xyz789".toList <:+: (maskedKey "abc123xyz789").toList :=
  ⟨masked_token_never_logged.1 _ _ _ rfl (by decide),
    masked_token_never_logged.2.1 _ (by decide) (by decide)⟩

/-- C6 counterexample: the claim as stated — over every token value —
fails: with token "***" the masked form is the token itself, so the
debug-log representation does contain the full token literal. -/
theorem masked_token_counterexample :
    maskedKey "***" = "***" ∧
    ("***".toList <:+: (authDebugMsg "GET" "/v3/documents" "***").toList) ∧
    (auth_flow [("R2R_API_KEY", "***")] true
        ⟨"GET", "/v3/documents", [], ""⟩).2 =
      [⟨LogLevel.debug, authDebugMsg "GET" "/v3/documents" "***"⟩] :=
  ⟨by decide, by decide, by decide⟩

/-! ### Claim C7: transport failure at startup -/

/-- C7 (amended): if fetching the OpenAPI document at startup fails with a
transport error, startup always terminates fatally — the module-level code
raises a RuntimeError, an uncaught exception at import time, so the
process exits with a non-zero status — after logging an error diagnostic
that names the unreachable spec URL.  No fallback to a local cached copy
exists anywhere in the code. -/
theorem fetch_failure_fatal (url baseUrl e : String) :
    (startupServer url baseUrl (FetchResult.failure e)).1 =
      Except.error
        ("Could not connect to R2R API. Please verify R2R_BASE_URL=" ++
          baseUrl ++ " is correct and the server is running.") ∧
    (⟨LogLevel.error,
        "Failed to fetch OpenAPI spec from " ++ url ++ ": " ++ e⟩ : LogEvent)
      ∈ (startupServer url baseUrl (FetchResult.failure e)).2 := by
  constructor
  · rfl
  · simp [startupServer, loadOpenapiSpec]

/-- C7 counterexample: the fallback half of the claim is false — on a
transport failure with a local cached copy present, the code still aborts
(`loadOpenapiSpec` does not even consult a cache), whereas the
spec-modelled loader `specLoadOpenapiSpec` would return the cached copy. -/
theorem fetch_fallback_counterexample :
    (loadOpenapiSpec "https://api.example/openapi.json" "https://api.example"
        (FetchResult.failure "connection refused")).1 =
      Except.error
        ("Could not connect to R2R API. Please verify R2R_BASE_URL=" ++
          "https://api.example" ++ " is correct and the server is running.") ∧
    specLoadOpenapiSpec "https://api.example/openapi.json"
        (FetchResult.failure "connection refused")
        (some (Json.obj [("openapi", Json.str "3.1.0")])) =
      Except.ok (Json.obj [("openapi", Json.str "3.1.0")]) :=
  ⟨rfl, rfl⟩

/-! ### Claim C8: malformed OpenAPI document is fatal at startup -/

/-- C8: a malformed fetched OpenAPI document — one that is not a mapping,
or lacks the "openapi" key — is a configuration error that is fatal at
startup: the module-level validation raises before `FastMCP.from_openapi`
runs, so no callable surface is ever generated and the process does not
start. -/
theorem malformed_spec_fatal (url baseUrl : String) (j : Json)
    (h : isDict j = false ∨ hasKey j "openapi" = false) :
    (startupServer url baseUrl (FetchResult.success j)).1 =
      Except.error
        ("Received invalid OpenAPI specification from " ++ url ++
          ". Please verify the API is returning a valid OpenAPI 3.0/3.1 spec.") ∧
    ∀ server : MCPServer,
      (startupServer url baseUrl (FetchResult.success j)).1 ≠
        Except.ok server := by
  have hcond : (!isDict j || !hasKey j "openapi") = true := by
    rcases h with h | h <;> simp [h]
  refine ⟨?_, ?_⟩
  · simp [startupServer, loadOpenapiSpec, hcond]
  · intro server
    simp [startupServer, loadOpenapiSpec, hcond]

/-- Witness for C8 at two concrete malformed documents: a non-mapping
JSON number, and a mapping without the "openapi" key. -/
theorem malformed_spec_fatal_witness :
    (isDict (Json.num 3) = false ∨ hasKey (Json.num 3) "openapi" = false) ∧
    (isDict (Json.obj [("title", Json.str "R2R")]) = false ∨
      hasKey (Json.obj [("title", Json.str "R2R")]) "openapi" = false) ∧
    (startupServer "u" "b" (FetchResult.success (Json.num 3))).1 =
      Except.error
        ("Received invalid OpenAPI specification from " ++ "u" ++
          ". Please verify the API is returning a valid OpenAPI 3.0/3.1 spec.") ∧
    (startupServer "u" "b"
        (FetchResult.success (Json.obj [("title", Json.str "R2R")]))).1 =
      Except.error
        ("Received invalid OpenAPI specification from " ++ "u" ++
          ". Please verify the API is returning a valid OpenAPI 3.0/3.1 spec.") :=
  ⟨Or.inl rfl, Or.inr rfl,
    (malformed_spec_fatal "u" "b" (Json.num 3) (Or.inl rfl)).1,
    (malformed_spec_fatal "u" "b" (Json.obj [("title", Json.str "R2R")])
      (Or.inr rfl)).1⟩

/-! ### Claim C10: Pipeline.add_step / Pipeline.execute -/

theorem applyEntries_cons {α : Type} (m : List (String × α)) (p : String × α)
    (l : List (String × α)) :
    applyEntries m (p :: l) = applyEntries (setEntry m p.1 p.2) l := rfl

theorem foldl_add_step {α ε : Type}
    (defs : List (String × (List (String × α) → Except ε α)))
    (init : List (Step α ε)) :
    defs.foldl (fun p nf => add_step p nf.1 nf.2) init =
      init ++ defs.map fun nf => { name := nf.1, func := nf.2 } := by
  induction defs generalizing init with
  | nil => simp
  | cons d rest ih =>
      rw [List.foldl_cons, ih]
      simp [add_step]

/-- First-failure characterization of `execute`, generic in the starting
results dict: some prefix of the steps completed, in order, each one fed
the results accumulated so far and recorded under its name; the reported
exception, if any, is the one raised by the first step after that prefix,
and no later step ran. -/
theorem execute_spec {α ε : Type} (steps : List (Step α ε))
    (acc : List (String × α)) :
    ∃ (vs : List α) (err : Option ε),
      execute steps acc =
        (applyEntries acc ((steps.map Step.name).zip vs), err) ∧
      vs.length ≤ steps.length ∧
      (∀ i (hi : i < vs.length) (hd : i < steps.length),
        (steps.get ⟨i, hd⟩).func
            (applyEntries acc (((steps.map Step.name).zip vs).take i)) =
          Except.ok (vs.get ⟨i, hi⟩)) ∧
      (err = none ↔ vs.length = steps.length) ∧
      (∀ e, err = some e → ∃ hd : vs.length < steps.length,
        (steps.get ⟨vs.length, hd⟩).func
            (applyEntries acc ((steps.map Step.name).zip vs)) =
          Except.error e) := by
  induction steps generalizing acc with
  | nil =>
      refine ⟨[], none, rfl, Nat.le_refl 0, ?_, by simp, by simp⟩
      intro i hi
      exact absurd hi (Nat.not_lt_zero i)
  | cons s rest ih =>
      cases hf : s.func acc with
      | error e =>
          refine ⟨[], some e, ?_, Nat.zero_le _, ?_, by simp, ?_⟩
          · simp [execute, hf, applyEntries]
          · intro i hi
            exact absurd hi (Nat.not_lt_zero i)
          · intro e' he'
            refine ⟨Nat.succ_pos rest.length, ?_⟩
            have : e' = e := by
              have := he'.symm
              simpa using this
            subst this
            simpa [applyEntries] using hf
      | ok v =>
          obtain ⟨vs, err, hex, hlen, hsteps, hnone, herr⟩ :=
            ih (setEntry acc s.name v)
          refine ⟨v :: vs, err, ?_, ?_, ?_, ?_, ?_⟩
          · simp only [execute, hf, List.map_cons, List.zip_cons_cons,
              applyEntries_cons]
            exact hex
          · simpa [Nat.succ_le_succ_iff] using hlen
          · intro i hi hd
            cases i with
            | zero =>
                simpa [applyEntries] using hf
            | succ n =>
                have hn : n < vs.length := Nat.lt_of_succ_lt_succ hi
                have hnd : n < rest.length := Nat.lt_of_succ_lt_succ hd
                have := hsteps n hn hnd
                simpa [List.take_succ_cons, applyEntries_cons] using this
          · constructor
            · intro h
              have := hnone.1 h
              simp [this]
            · intro h
              exact hnone.2 (Nat.succ_injective (by simpa using h))
          · intro e he
            obtain ⟨hd, hfail⟩ := herr e he
            refine ⟨Nat.succ_lt_succ hd, ?_⟩
            simpa [applyEntries_cons] using hfail

/-- C10: for every pipeline assembled by a sequence of `add_step` calls
and run by `execute` on the empty starting results dict: the steps are
held in exactly the order they were added, and some prefix of them
completed in that order — each step receiving the results dict accumulated
from the steps before it and its returned value recorded under its name —
the final results dict being exactly the accumulated results of that
prefix; no exception is reported iff every step completed, and a reported
exception is the one raised by the first step after the completed prefix
(no later step having executed). -/
theorem pipeline_execute_correct {α ε : Type}
    (defs : List (String × (List (String × α) → Except ε α))) :
    (defs.foldl (fun p nf => add_step p nf.1 nf.2) [] =
      defs.map fun nf => { name := nf.1, func := nf.2 }) ∧
    ∃ (vs : List α) (err : Option ε),
      execute (defs.foldl (fun p nf => add_step p nf.1 nf.2) []) [] =
        (applyEntries [] ((defs.map Prod.fst).zip vs), err) ∧
      vs.length ≤ defs.length ∧
      (∀ i (hi : i < vs.length) (hd : i < defs.length),
        (defs.get ⟨i, hd⟩).2
            (applyEntries [] (((defs.map Prod.fst).zip vs).take i)) =
          Except.ok (vs.get ⟨i, hi⟩)) ∧
      (err = none ↔ vs.length = defs.length) ∧
      (∀ e, err = some e → ∃ hd : vs.length < defs.length,
        (defs.get ⟨vs.length, hd⟩).2
            (applyEntries [] ((defs.map Prod.fst).zip vs)) =
          Except.error e) := by
  have hfold := foldl_add_step defs ([] : List (Step α ε))
  rw [List.nil_append] at hfold
  refine ⟨hfold, ?_⟩
  rw [hfold]
  obtain ⟨vs, err, hex, hlen, hsteps, hnone, herr⟩ :=
    execute_spec (defs.map fun nf => { name := nf.1, func := nf.2 })
      ([] : List (String × α))
  have hnames : (defs.map fun nf =>
      ({ name := nf.1, func := nf.2 } : Step α ε)).map Step.name =
        defs.map Prod.fst := by
    simp [List.map_map]
  refine ⟨vs, err, ?_, by simpa using hlen, ?_, by simpa using hnone, ?_⟩
  · rw [hex, hnames]
  · intro i hi hd
    have := hsteps i hi (by simpa using hd)
    rw [hnames] at this
    simpa using this
  · intro e he
    obtain ⟨hd, hfail⟩ := herr e he
    rw [hnames] at hfail
    refine ⟨by simpa using hd, ?_⟩
    simpa using hfail

/-- Witness for C10: the characterization applied to a concrete
three-step pipeline whose middle step raises. -/
theorem pipeline_execute_correct_witness :
    (([("a", fun _ => Except.ok 1),
        ("b", fun _ => Except.error "boom"),
        ("c", fun _ => Except.ok 3)] :
          List (String × (List (String × Nat) → Except String Nat))).foldl
        (fun p nf => add_step p nf.1 nf.2) [] =
      [("a", fun _ => Except.ok 1),
        ("b", fun _ => Except.error "boom"),
        ("c", fun _ => Except.ok 3)].map fun nf =>
          { name := nf.1, func := nf.2 }) ∧
    ∃ (vs : List Nat) (err : Option String),
      execute (([("a", fun _ => Except.ok 1),
          ("b", fun _ => Except.error "boom"),
          ("c", fun _ => Except.ok 3)] :
            List (String × (List (String × Nat) → Except String Nat))).foldl
          (fun p nf => add_step p nf.1 nf.2) []) [] =
        (applyEntries []
          ((([("a", fun _ => Except.ok 1),
              ("b", fun _ => Except.error "boom"),
              ("c", fun _ => Except.ok 3)] :
                List (String ×
                  (List (String × Nat) → Except String Nat))).map
              Prod.fst).zip vs), err) ∧
      vs.length ≤ 3 ∧
      (∀ i (hi : i < vs.length) (hd : i < 3),
        (([("a", fun _ => Except.ok 1),
            ("b", fun _ => Except.error "boom"),
            ("c", fun _ => Except.ok 3)] :
              List (String ×
                (List (String × Nat) → Except String Nat))).get ⟨i, hd⟩).2
            (applyEntries []
              (((([("a", fun _ => Except.ok 1),
                  ("b", fun _ => Except.error "boom"),
                  ("c", fun _ => Except.ok 3)] :
                    List (String ×
                      (List (String × Nat) → Except String Nat))).map
                  Prod.fst).zip vs).take i)) =
          Except.ok (vs.get ⟨i, hi⟩)) ∧
      (err = none ↔ vs.length = 3) ∧
      (∀ e, err = some e → ∃ hd : vs.length < 3,
        (([("a", fun _ => Except.ok 1),
            ("b", fun _ => Except.error "boom"),
            ("c", fun _ => Except.ok 3)] :
              List (String ×
                (List (String × Nat) → Except String Nat))).get
            ⟨vs.length, hd⟩).2
            (applyEntries []
              ((([("a", fun _ => Except.ok 1),
                  ("b", fun _ => Except.error "boom"),
                  ("c", fun _ => Except.ok 3)] :
                    List (String ×
                      (List (String × Nat) → Except String Nat))).map
                  Prod.fst).zip vs)) =
          Except.error e) :=
  pipeline_execute_correct
    [("a", fun _ => Except.ok 1),
      ("b", fun _ => Except.error "boom"),
      ("c", fun _ => Except.ok 3)]

end R2R
